import Mathlib

/-!
Verification of the RSS news-feed AI-filtering pipeline of this
repository (`utils_network.js`, with helpers from `utils.js` and
`utils_google_drive.js`).

Modelling conventions.  JavaScript strings are Lean `String`s; the
character-level primitives the source relies on (`trim`, `split`,
global `replace`, the regex searches it performs) are re-implemented on
`List Char` to mirror the JavaScript semantics.  JavaScript
`string.length` is modelled by `String.length` (the two agree on all
non-astral text, which covers every string the pipeline manipulates).
External I/O is modelled by explicit oracle parameters: a Groq oracle
call is `String → Option String` where `none` models a thrown error; a
Google Drive folder is an association list of file names to contents;
the HTTP fetch of a detail page is abstracted by quantifying over the
fetched HTML text.
-/

/-- Character set removed by JavaScript `String.prototype.trim`
(whitespace and line terminators; the subset relevant to this code). -/
def isJsSpace (c : Char) : Bool :=
  c == ' ' || c == '\t' || c == '\n' || c == '\r' ||
  c == '\x0b' || c == '\x0c' || c == ' ' || c == '　' || c == '﻿'

/-- JavaScript `trim` on a character list: drop leading and trailing
whitespace. -/
def jsTrimList (l : List Char) : List Char :=
  ((l.dropWhile isJsSpace).reverse.dropWhile isJsSpace).reverse

/-- JavaScript `String.prototype.trim`. -/
def jsTrim (s : String) : String := String.mk (jsTrimList s.data)

/-- Case-sensitive literal-prefix test (`startsWith`). -/
def startsWithL : List Char → List Char → Bool
  | [], _ => true
  | _ :: _, [] => false
  | p :: ps, c :: cs => p == c && startsWithL ps cs

/-- Case-sensitive substring test (JavaScript `String.prototype.includes`). -/
def containsL (pat : List Char) : List Char → Bool
  | [] => pat.isEmpty
  | c :: cs => startsWithL pat (c :: cs) || containsL pat cs

/-- Case-insensitive literal-prefix test (for `/.../i` regex literals). -/
def startsWithCI : List Char → List Char → Bool
  | [], _ => true
  | _ :: _, [] => false
  | p :: ps, c :: cs => p.toLower == c.toLower && startsWithCI ps cs

/-- Find the first case-insensitive occurrence of `pat` and return the
remainder after it (`none` when `pat` does not occur). -/
def dropAfterFirstCI (pat : List Char) : List Char → Option (List Char)
  | [] => if pat.isEmpty then some [] else none
  | c :: cs =>
    if startsWithCI pat (c :: cs) then some ((c :: cs).drop pat.length)
    else dropAfterFirstCI pat cs

/-- Fuelled worker for a JavaScript global regex replace of the form
`s.replace(/OPEN[\s\S]*?CLOSE/gi, "")`: at each position, when the open
tag matches (case-insensitively) and a close tag occurs later, the
leftmost non-greedy block is removed and scanning resumes after it;
otherwise the character is kept.  Fuel `= length of the input` always
suffices, since every step consumes at least one character. -/
def removeBlocksAux (openTag closeTag : List Char) : Nat → List Char → List Char
  | 0, l => l
  | _ + 1, [] => []
  | fuel + 1, c :: cs =>
    if startsWithCI openTag (c :: cs) then
      match dropAfterFirstCI closeTag ((c :: cs).drop openTag.length) with
      | some rest => removeBlocksAux openTag closeTag fuel rest
      | none => c :: removeBlocksAux openTag closeTag fuel cs
    else c :: removeBlocksAux openTag closeTag fuel cs

/-- Fuelled worker for a JavaScript global literal replace with the
empty string (`s.replace(/PAT/g, "")` for a literal pattern). -/
def removeAllOccAux (pat : List Char) : Nat → List Char → List Char
  | 0, l => l
  | _ + 1, [] => []
  | fuel + 1, c :: cs =>
    if !pat.isEmpty && startsWithL pat (c :: cs) then
      removeAllOccAux pat fuel ((c :: cs).drop pat.length)
    else c :: removeAllOccAux pat fuel cs

/-- JavaScript `String.prototype.split` with a one-character separator:
every occurrence separates, empty segments are kept, and the result is
never the empty list. -/
def splitOnChar (sep : Char) : List Char → List (List Char)
  | [] => [[]]
  | c :: cs =>
    if c == sep then [] :: splitOnChar sep cs
    else
      match splitOnChar sep cs with
      | [] => [[c]]
      | g :: gs => (c :: g) :: gs

/-- JavaScript `Array.prototype.join` with a one-character separator. -/
def joinWith (sep : Char) : List (List Char) → List Char
  | [] => []
  | [g] => g
  | g :: g2 :: gs => g ++ sep :: joinWith sep (g2 :: gs)

/-! ## NewsUtils.AI (`utils_network.js` lines 782-873) -/

/-- `AI_CLASSIFICATION_PROMPT` (`utils_network.js` lines 327-355). -/
def AI_CLASSIFICATION_PROMPT : String :=
  "给定一条新闻标题，判断它属于哪类新闻，并输出保存标记。\n\n请严格按照以下if...else逻辑执行判断：\n\n第一步：确定新闻分类\n从以下类别中选择最匹配的一项：政治新闻、财经新闻、军事新闻、科技新闻、社会新闻、娱乐新闻、体育新闻、天气新闻、其他新闻\n\n第二步：根据分类确定保存标记\nIF 分类是 体育新闻 OR 军事新闻 OR 娱乐新闻：\n  保存标记 = 0\nELSE IF 分类是 政治新闻：\n  IF 标题涉及日本、韩国或台湾，且仅涉及这些国家或地区的内部政治，与其他国家无关联：\n    保存标记 = 0\n  ELSE IF 标题涉及国家公职人员或国企、事业单位高管贪污腐败违纪的相关处置：\n    保存标记 = 0\n  ELSE：\n    保存标记 = 1\nELSE IF 分类是 科技新闻：\n  IF 标题主要关于某款具体的电子产品发布或软件更新：\n    保存标记 = 0\n  ELSE：\n    保存标记 = 1\nELSE：\n  保存标记 = 1\n\n最终输出格式：保存标记,分类\n例如：1,政治新闻 或 0,体育新闻\n\n新闻标题如下："

/-- `AI_SUMMARIZATION_PROMPT` (`utils_network.js` lines 360-367). -/
def AI_SUMMARIZATION_PROMPT : String :=
  "请将以下新闻内容总结为不超过400字的简洁版本。要求：\n1. 保留新闻的核心事实和关键信息\n2. 保持逻辑清晰，语句通顺\n3. 不要添加个人观点或评论\n4. 不要使用\"记者\"、\"监制\"、\"作者\"等词汇\n5. 直接输出总结内容，不要任何前缀或解释\n\n新闻内容如下："

/-- `NewsUtils.AI.cleanThinkingTags` (`utils_network.js` lines 867-872):
strip `<think>...</think>` blocks, then `<thinking>...</thinking>`
blocks (both global, case-insensitive, non-greedy), then trim. -/
def cleanThinkingTags (rawResponse : String) : String :=
  let pass1 := removeBlocksAux ("<think>".data) ("</think>".data)
    rawResponse.data.length rawResponse.data
  let pass2 := removeBlocksAux ("<thinking>".data) ("</thinking>".data)
    pass1.length pass1
  String.mk (jsTrimList pass2)

/-- The result type of `NewsUtils.AI.classifyNewsByTitle`
(`{ shouldSave, category }`). -/
structure Classification where
  shouldSave : Bool
  category : String
deriving DecidableEq

/-- The category the classifier reports when classification fails
(`'分类失败'`, "classification failed"). -/
def failCategory : String := "分类失败"

/-- The parsing step of `NewsUtils.AI.classifyNewsByTitle`
(`utils_network.js` lines 800-825): split the cleaned response on
commas, trim every segment, require at least two segments, require the
first to be exactly `0` or `1`, and rejoin the remaining segments with
bare commas as the category.  A thrown parse error is caught by the
enclosing `try` and yields the failure classification. -/
def classifyParse (response : String) : Classification :=
  match (splitOnChar (',') response.data).map jsTrimList with
  | shouldSaveStr :: c1 :: crest =>
    let category := String.mk (joinWith (',') (c1 :: crest))
    if shouldSaveStr ≠ [('0')] ∧ shouldSaveStr ≠ [('1')] then
      { shouldSave := false, category := failCategory }
    else
      { shouldSave := shouldSaveStr == [('1')], category := category }
  | _ => { shouldSave := false, category := failCategory }

/-- `NewsUtils.AI.classifyNewsByTitle` (`utils_network.js` lines
788-832).  The Groq oracle is a parameter; `none` models a thrown call
failure, which the source catches and maps to
`{ shouldSave: false, category: '分类失败' }`. -/
def classifyNewsByTitle (askGroq : String → Option String) (title : String) :
    Classification :=
  match askGroq (AI_CLASSIFICATION_PROMPT ++ title) with
  | some rawResponse => classifyParse (cleanThinkingTags rawResponse)
  | none => { shouldSave := false, category := failCategory }

/-- The category carried by a well-formed cleaned oracle response: the
trimmed comma segments after the first, rejoined with bare commas
(`parts.slice(1).join(',')` in the source); the failure label when the
response has fewer than two segments. -/
def categoryOfResponse (response : String) : String :=
  match (splitOnChar (',') response.data).map jsTrimList with
  | _ :: c1 :: crest => String.mk (joinWith (',') (c1 :: crest))
  | _ => failCategory

/-- `NewsUtils.AI.summarizeContent` (`utils_network.js` lines 839-860):
ask the oracle for a summary and strip thinking tags; on a thrown call
failure (`none`) return the input content unchanged. -/
def summarizeContent (askGroq : String → Option String) (content : String) :
    String :=
  match askGroq (AI_SUMMARIZATION_PROMPT ++ content) with
  | some rawResponse => cleanThinkingTags rawResponse
  | none => content

/-! ## NewsUtils.Content.cleanFooterContent (`utils_network.js` lines 727-764) -/

/-- The whole-line removal keywords of `cleanFooterContent`
(`['记者', '监制', '作者', '仅供参考', '版权所有']`). -/
def footerKeywords : List (List Char) :=
  [("记者".data), ("监制".data), ("作者".data), ("仅供参考".data), ("版权所有".data)]

/-- The per-line map of `cleanFooterContent`: trim the line; when it
contains `(完)`, remove every occurrence and trim again. -/
def processFooterLine (line : List Char) : List Char :=
  let processedLine := jsTrimList line
  if containsL ("(完)".data) processedLine then
    jsTrimList (removeAllOccAux ("(完)".data) processedLine.length processedLine)
  else processedLine

/-- `NewsUtils.Content.cleanFooterContent` (`utils_network.js` lines
727-764).  Splits on newlines, applies the per-line map and the
keyword filter to the lines from index `max(0, length - 11)` on (the
slice computed by `lines.length - linesToCheck - 1`), keeps the earlier
lines as they are, rejoins with newlines and trims the result. -/
def cleanFooterContent (content : String) : String :=
  if jsTrim content = ("") then content
  else
    let lines := splitOnChar ('\n') content.data
    if lines = [] then content
    else
      let linesToCheck : Nat := 10
      let startIndex : Nat := lines.length - (linesToCheck + 1)
      let linesToProcess := lines.drop startIndex
      let remainingLines := lines.take startIndex
      let processedLines :=
        (linesToProcess.map processFooterLine).filter
          (fun line => !(footerKeywords.any (fun keyword => containsL keyword line)))
      String.mk (jsTrimList (joinWith ('\n') (remainingLines ++ processedLines)))

/-! ## Detail-page content selection
(`NewsUtils.Content.fetchDetailPageContent`, `utils_network.js` lines
621-717).  The HTTP fetch is external; what is modelled is the pure
content-choice logic applied to the fetched HTML (lines 654-696): the
selector loop with its minimum-fragment-length acceptance gate, and the
body-regex fallback.  `Utils.extractElement` (from `utils.js`) is the
selector-matching collaborator and is passed as a function parameter
`extractEl`. -/

/-- Consume characters up to and including the first `>` (the
deterministic behaviour of `[^>]*>` in the source's regex literals);
`none` when no `>` remains. -/
def takeGt : List Char → Option (List Char)
  | [] => none
  | c :: cs => if c == '>' then some cs else takeGt cs

/-- The lazy group of the source's body regex.  Because the regex
literal `/<body[^>]*>([\\s\\S]*?)<\/body>/i` uses `[\\s\\S]` inside a
regex literal, the character class is `{ '\\', 's', 'S' }` — not "any
character".  This function returns the shortest prefix drawn from that
class that is followed by a case-insensitive `</body>`. -/
def lazyClassClose : List Char → Option (List Char)
  | [] => none
  | c :: cs =>
    if startsWithCI ("</body>".data) (c :: cs) then some []
    else if c == '\\' || c == 's' || c == 'S' then
      (lazyClassClose cs).map (fun g => c :: g)
    else none

/-- Leftmost-match search of the source's body regex: at each position,
try a case-insensitive `<body`, then `[^>]*>`, then the lazy class
group followed by `</body>`; on failure advance one character. -/
def bodyMatchAux : List Char → Option (List Char)
  | [] => none
  | c :: cs =>
    if startsWithCI ("<body".data) (c :: cs) then
      match takeGt ((c :: cs).drop 5) with
      | some afterTag =>
        match lazyClassClose afterTag with
        | some g => some g
        | none => bodyMatchAux cs
      | none => bodyMatchAux cs
    else bodyMatchAux cs

/-- `html.match(/<body[^>]*>([\\s\\S]*?)<\/body>/i)` restricted to its
first capture group (`utils_network.js` line 690). -/
def jsBodyMatch (html : String) : Option String :=
  (bodyMatchAux html.data).map String.mk

/-- The selector loop of `fetchDetailPageContent` (`utils_network.js`
lines 670-686): try each selector in order and accept the first
extracted fragment whose trimmed length is positive and exceeds 100
characters. -/
def firstAcceptedSelector (extractEl : String → String → String)
    (html : String) : List String → String
  | [] => ("")
  | selector :: rest =>
    let extractedContent := extractEl html selector
    if 0 < (jsTrim extractedContent).length then
      if 100 < (jsTrim extractedContent).length then extractedContent
      else firstAcceptedSelector extractEl html rest
    else firstAcceptedSelector extractEl html rest

/-- The content choice of `fetchDetailPageContent` (`utils_network.js`
lines 670-696): the first accepted selector fragment, else the body
regex fallback — taking the capture group only when the match succeeds
and the group is non-empty (`if (bodyMatch && bodyMatch[1])`), and the
whole document otherwise. -/
def detailContentChoice (extractEl : String → String → String)
    (html : String) (selectors : List String) : String :=
  let content := firstAcceptedSelector extractEl html selectors
  if content = ("") then
    match jsBodyMatch html with
    | some g => if g = ("") then html else g
    | none => html
  else content

/-! ## Persistence (`Utils.safeFileName`, `UtilsGoogleDrive.saveOrUpdateFile`,
`NewsUtils.Storage`) -/

/-- The characters stripped by `Utils.safeFileName`
(`/[\\/:*?"<>|]/g`, `utils.js` line 133). -/
def isIllegalFileChar (c : Char) : Bool :=
  c == '\\' || c == '/' || c == ':' || c == '*' || c == '?' ||
  c == '"' || c == '<' || c == '>' || c == '|'

/-- `Utils.safeFileName` (`utils.js` lines 132-138): strip illegal
characters, cap the length, trim. -/
def safeFileName (text : String) (maxLength : Nat) : String :=
  let safe := String.mk (text.data.filter (fun c => !isIllegalFileChar c))
  let safe := if maxLength < safe.length then String.mk (safe.data.take maxLength) else safe
  jsTrim safe

/-- A Google Drive folder, modelled as an association list from file
names to file contents, in creation order. -/
abbrev DriveFolder : Type := List (String × String)

/-- Update the first file with the given name (`getFilesByName` returns
the first match and `setContent` overwrites it); `none` when no file
with that name exists. -/
def updateFirstFile : DriveFolder → String → String → Option DriveFolder
  | [], _, _ => none
  | (n, c) :: rest, fileName, content =>
    if n = fileName then some ((n, content) :: rest)
    else (updateFirstFile rest fileName content).map (fun f => (n, c) :: f)

/-- `UtilsGoogleDrive.saveOrUpdateFile` (`utils_google_drive.js` lines
185-217): reject an empty (after trim) file name; otherwise overwrite
the existing file of that name or create a new one.  Drive I/O errors
(caught and mapped to `false` in the source) are outside this model;
the folder argument is always a valid folder. -/
def saveOrUpdateFile (folder : DriveFolder) (fileName content : String) :
    DriveFolder × Bool :=
  if jsTrim fileName = ("") then (folder, false)
  else
    match updateFirstFile folder fileName content with
    | some folder2 => (folder2, true)
    | none => (folder ++ [(fileName, content)], true)

/-- `NewsUtils.Storage.saveNewsToDrive` (`utils_network.js` lines
948-979): derive the safe file name `safeFileName(title, 100) + '.txt'`
and save or update that file. -/
def saveNewsToDrive (folder : DriveFolder) (title content : String) :
    DriveFolder × Bool :=
  let safeName := safeFileName title 100 ++ (".txt")
  saveOrUpdateFile folder safeName content

/-- The field object passed to `NewsUtils.Storage.formatNewsContent`
(`utils_network.js` lines 1077-1083). -/
structure NewsFields where
  source : String
  category : String
  title : String
  content : String
  isAISummarized : Bool
deriving DecidableEq

/-- `NewsUtils.Storage.formatNewsContent` (`utils_network.js` lines
923-939): the canonical 4-part record text, with the condensation
marker prefix on the body. -/
def formatNewsContent (fields : NewsFields) : String :=
  let contentPrefix := if fields.isAISummarized then ("AI总结：\n") else ("新闻原文：\n")
  let finalContent := contentPrefix ++
    (if fields.content = ("") then ("【内容为空】") else fields.content)
  ("来源：") ++ (if fields.source = ("") then ("未知") else fields.source) ++
  ("\n分类：") ++ (if fields.category = ("") then ("未分类") else fields.category) ++
  ("\n\n") ++ (if fields.title = ("") then ("【无标题】") else fields.title) ++
  ("\n\n") ++ finalContent

/-! ## The per-item pipeline and the group orchestrator
(`processNewsFeedsByGroup`, `utils_network.js` lines 989-1126) -/

/-- A parsed feed entry; only the title takes part in the orchestration
logic modelled here (content resolution is an oracle over entries). -/
structure Entry where
  title : String
deriving DecidableEq

/-- `CONTENT_CONFIG.minContentLength` (`utils_network.js` line 318). -/
def minContentLength : Nat := 30

/-- `CONTENT_CONFIG.maxContentLength` (`utils_network.js` line 319). -/
def maxContentLength : Nat := 500

/-- `PERFORMANCE_CONFIG.maxEntriesPerFeed` (`utils_network.js` line 309). -/
def performanceMaxEntriesPerFeed : Nat := 50

/-- The decision taken for one entry inside the item loop
(`utils_network.js` lines 1051-1095). -/
inductive ItemAction where
  /-- `classification.shouldSave` was false: log and skip. -/
  | skipClassification (category : String)
  /-- the final content was below `minContentLength`: silent skip. -/
  | skipTooShort
  /-- construct the record fields and persist. -/
  | persist (fields : NewsFields)
deriving DecidableEq

/-- The item decision logic of `processNewsFeedsByGroup`
(`utils_network.js` lines 1051-1086): classify by title; when kept,
resolve the content (`NewsUtils.Content.extractNewsContent`, an oracle
here since it performs network I/O), summarize when the resolved body
exceeds `maxContentLength` (marking `isAISummarized`), silently skip
when the final content is below `minContentLength`, and otherwise build
the record fields to persist. -/
def entryOutcome (classifyOracle summarizeOracle : String → Option String)
    (resolveContent : Entry → String) (feedName : String) (entry : Entry) :
    ItemAction :=
  let classification := classifyNewsByTitle classifyOracle entry.title
  if classification.shouldSave then
    let extractedContent := resolveContent entry
    let step :=
      if maxContentLength < extractedContent.length then
        (summarizeContent summarizeOracle extractedContent, true)
      else (extractedContent, false)
    if step.fst.length < minContentLength then ItemAction.skipTooShort
    else ItemAction.persist
      { source := feedName, category := classification.category,
        title := entry.title, content := step.fst, isAISummarized := step.snd }
  else ItemAction.skipClassification classification.category

/-- The run counters of `processNewsFeedsByGroup` (`totalProcessed`,
`totalSaved`, `totalErrors`). -/
structure RunStats where
  processed : Nat
  saved : Nat
  errors : Nat
deriving DecidableEq

/-- One iteration of the item loop (`utils_network.js` lines
1041-1101) acting on the Drive folder and the counters: entries with an
empty (after trim) title are skipped before counting; otherwise the
entry is counted as processed and its outcome applied — persisting
bumps `saved` when the Drive write succeeds. -/
def processEntry (classifyOracle summarizeOracle : String → Option String)
    (resolveContent : Entry → String) (feedName : String)
    (folder : DriveFolder) (entry : Entry) (stats : RunStats) :
    DriveFolder × RunStats :=
  if jsTrim entry.title = ("") then (folder, stats)
  else
    let stats := { stats with processed := stats.processed + 1 }
    match entryOutcome classifyOracle summarizeOracle resolveContent feedName entry with
    | ItemAction.persist fields =>
      let saveResult := saveNewsToDrive folder entry.title (formatNewsContent fields)
      (saveResult.fst,
        if saveResult.snd then { stats with saved := stats.saved + 1 } else stats)
    | _ => (folder, stats)

/-- A configured feed source (the fields of `RSS_FEEDS` entries that
the orchestrator reads). -/
structure Feed where
  name : String
  url : String
  processGroup : Nat
  maxEntriesPerFeed : Option Nat
deriving DecidableEq

/-- `feed.maxEntriesPerFeed || PERFORMANCE_CONFIG.maxEntriesPerFeed`
(`utils_network.js` line 1030). -/
def maxEntriesOf (feed : Feed) : Nat :=
  feed.maxEntriesPerFeed.getD performanceMaxEntriesPerFeed

/-- The item loop of the orchestrator with the whole per-item body
abstracted as a step that either returns whether the record was saved
or raises (`Except.error`): the inner `try`/`catch` of
`utils_network.js` lines 1050-1100 counts a raised step as one error
and continues with the next entry. -/
def processItemsList (itemStep : Entry → Except String Bool) :
    List Entry → RunStats → RunStats
  | [], stats => stats
  | entry :: rest, stats =>
    if jsTrim entry.title = ("") then processItemsList itemStep rest stats
    else
      let stats1 := { stats with processed := stats.processed + 1 }
      let stats2 :=
        match itemStep entry with
        | Except.ok true => { stats1 with saved := stats1.saved + 1 }
        | Except.ok false => stats1
        | Except.error _ => { stats1 with errors := stats1.errors + 1 }
      processItemsList itemStep rest stats2

/-- The feed loop of the orchestrator (`utils_network.js` lines
1027-1108) with the feed-level work (fetch/parse and setup) abstracted
as a step that either yields the entry list or raises: the outer
`try`/`catch` counts a raised feed as one error and continues with the
next feed. -/
def runGroupAux (fetchFeed : Feed → Except String (List Entry))
    (itemStep : Entry → Except String Bool) :
    List Feed → RunStats → RunStats
  | [], stats => stats
  | feed :: rest, stats =>
    let stats2 :=
      match fetchFeed feed with
      | Except.ok entries =>
        processItemsList itemStep (entries.take (maxEntriesOf feed)) stats
      | Except.error _ => { stats with errors := stats.errors + 1 }
    runGroupAux fetchFeed itemStep rest stats2

/-- `processNewsFeedsByGroup` restricted to its counter behaviour: run
every feed of the group in order, starting from zeroed counters. -/
def runGroupStats (fetchFeed : Feed → Except String (List Entry))
    (itemStep : Entry → Except String Bool) (feeds : List Feed) : RunStats :=
  runGroupAux fetchFeed itemStep feeds { processed := 0, saved := 0, errors := 0 }

/-! ## Helper lemmas -/

theorem splitOnChar_ne_nil (sep : Char) (l : List Char) : splitOnChar sep l ≠ [] := by
  cases l with
  | nil => simp [splitOnChar]
  | cons c cs =>
    simp only [splitOnChar]
    split
    · simp
    · split <;> simp

theorem splitOnChar_cons_exists (sep : Char) (l : List Char) :
    ∃ g gs, splitOnChar sep l = g :: gs := by
  cases hh : splitOnChar sep l with
  | nil => exact absurd hh (splitOnChar_ne_nil sep l)
  | cons g gs => exact ⟨g, gs, rfl⟩

theorem joinWith_splitOnChar (sep : Char) (l : List Char) :
    joinWith sep (splitOnChar sep l) = l := by
  induction l with
  | nil => rfl
  | cons c cs ih =>
    obtain ⟨g, gs, hg⟩ := splitOnChar_cons_exists sep cs
    rw [hg] at ih
    by_cases h : c = sep
    · subst h
      simp only [splitOnChar, beq_self_eq_true, if_true, hg]
      show [] ++ c :: joinWith c (g :: gs) = c :: cs
      rw [List.nil_append, ih]
    · have hb : (c == sep) = false := by simpa using h
      simp only [splitOnChar, hb, Bool.false_eq_true, if_false, hg]
      cases gs with
      | nil =>
        show c :: g = c :: cs
        rw [show joinWith sep [g] = g from rfl] at ih
        rw [ih]
      | cons g2 gs2 =>
        show (c :: g) ++ sep :: joinWith sep (g2 :: gs2) = c :: cs
        rw [show joinWith sep (g :: g2 :: gs2) = g ++ sep :: joinWith sep (g2 :: gs2) from rfl] at ih
        rw [List.cons_append, ih]

theorem splitOnChar_of_not_mem (sep : Char) (l : List Char) (h : sep ∉ l) :
    splitOnChar sep l = [l] := by
  induction l with
  | nil => rfl
  | cons c cs ih =>
    have h1 : ¬ c = sep := fun hh => h (by simp [hh])
    have h2 : sep ∉ cs := fun hh => h (by simp [hh])
    have hb : (c == sep) = false := by simpa using h1
    simp only [splitOnChar, hb, Bool.false_eq_true, if_false, ih h2]

theorem splitOnChar_append (sep : Char) (h rest : List Char) (hne : sep ∉ h) :
    splitOnChar sep (h ++ sep :: rest) = h :: splitOnChar sep rest := by
  induction h with
  | nil =>
    show splitOnChar sep (sep :: rest) = [] :: splitOnChar sep rest
    simp only [splitOnChar, beq_self_eq_true, if_true]
  | cons c cs ih =>
    have h1 : ¬ c = sep := fun hh => hne (by simp [hh])
    have h2 : sep ∉ cs := fun hh => hne (by simp [hh])
    have hb : (c == sep) = false := by simpa using h1
    rw [List.cons_append]
    simp only [splitOnChar, hb, Bool.false_eq_true, if_false]
    rw [ih h2]

theorem jsTrimList_ne_nil {l : List Char} {c : Char} (hc : c ∈ l)
    (hs : isJsSpace c = false) : jsTrimList l ≠ [] := by
  intro h
  unfold jsTrimList at h
  rw [List.reverse_eq_nil_iff, List.dropWhile_eq_nil_iff] at h
  have h2 : ∀ x ∈ l.dropWhile isJsSpace, isJsSpace x = true := by
    intro x hx
    exact h x (by simpa using hx)
  have hsplit := List.takeWhile_append_dropWhile (p := isJsSpace) (l := l)
  rw [← hsplit] at hc
  rcases List.mem_append.mp hc with h3 | h3
  · exact absurd (List.mem_takeWhile_imp h3) (by simp [hs])
  · exact absurd (h2 c h3) (by simp [hs])

theorem map_eq_self_of_forall {α : Type} (f : α → α) (l : List α)
    (h : ∀ x ∈ l, f x = x) : l.map f = l := by
  induction l with
  | nil => rfl
  | cons a l ih =>
    simp only [List.map_cons, h a (by simp), ih (fun x hx => h x (by simp [hx]))]

theorem classifyParse_eq (r : String) :
    classifyParse r = { shouldSave := false, category := failCategory } ∨
    ∃ p0 p1 crest, (splitOnChar (',') r.data).map jsTrimList = p0 :: p1 :: crest ∧
      (p0 = [('0')] ∨ p0 = [('1')]) ∧
      classifyParse r = { shouldSave := p0 == [('1')],
                          category := String.mk (joinWith (',') (p1 :: crest)) } := by
  unfold classifyParse
  cases hm : (splitOnChar (',') r.data).map jsTrimList with
  | nil => left; rfl
  | cons p0 rest =>
    cases rest with
    | nil => left; rfl
    | cons p1 crest =>
      by_cases hif : p0 ≠ [('0')] ∧ p0 ≠ [('1')]
      · left
        show (if p0 ≠ [('0')] ∧ p0 ≠ [('1')] then _ else _) = _
        rw [if_pos hif]
      · right
        refine ⟨p0, p1, crest, rfl, ?_, ?_⟩
        · by_cases h0 : p0 = [('0')]
          · exact Or.inl h0
          · by_cases h1 : p0 = [('1')]
            · exact Or.inr h1
            · exact absurd ⟨h0, h1⟩ hif
        · show (if p0 ≠ [('0')] ∧ p0 ≠ [('1')] then _ else _) = _
          rw [if_neg hif]

theorem classifyParse_keep_category (r : String)
    (h : (classifyParse r).shouldSave = true) :
    (classifyParse r).category = categoryOfResponse r := by
  rcases classifyParse_eq r with hf | ⟨p0, p1, crest, hm, _, he⟩
  · rw [hf] at h
    simp at h
  · rw [he]
    show String.mk (joinWith (',') (p1 :: crest)) = categoryOfResponse r
    unfold categoryOfResponse
    rw [hm]

theorem classifyParse_split_form (r : String) (flag rest : List Char)
    (h_eq : r.data = flag ++ (',') :: rest) (h_nc : (',') ∉ flag)
    (h_inv : ∀ p ∈ splitOnChar (',') r.data, jsTrimList p = p) :
    ∃ q qs, (splitOnChar (',') r.data).map jsTrimList = flag :: q :: qs ∧
      joinWith (',') (q :: qs) = rest := by
  have hs : splitOnChar (',') r.data = flag :: splitOnChar (',') rest := by
    rw [h_eq]
    exact splitOnChar_append (',') flag rest h_nc
  obtain ⟨q, qs, hq⟩ := splitOnChar_cons_exists (',') rest
  rw [hs, hq] at h_inv
  refine ⟨q, qs, ?_, ?_⟩
  · rw [hs, hq]
    exact map_eq_self_of_forall _ _ h_inv
  · rw [← hq]
    exact joinWith_splitOnChar (',') rest

/-! ## Claim theorems -/

/-- C3: for every oracle response, `classifyNewsByTitle` parses the
tag-stripped text as `flag,category` where the flag must be exactly the
literal `0` or `1` and the category is the remainder after the first
comma (commas inside the category allowed); an oracle call failure, a
response without a comma, or a flag outside `{0,1}` each yield exactly
the failure classification `{shouldSave: false, category: '分类失败'}`
(the function is total, so it never throws); `"1,finance"` gives
`{keep: true, "finance"}`, `"0,sports"` gives `{keep: false, "sports"}`
and `"maybe"` gives the failure classification.  The
remainder-after-the-first-comma reading of the category is stated for
responses whose comma segments carry no surrounding whitespace (the
source trims each segment; see C10 for the general whitespace case). -/
theorem c3_classifier_fail_closed_contract :
    (∀ askGroq title, askGroq (AI_CLASSIFICATION_PROMPT ++ title) = none →
      classifyNewsByTitle askGroq title =
        { shouldSave := false, category := failCategory })
  ∧ (∀ askGroq title raw, askGroq (AI_CLASSIFICATION_PROMPT ++ title) = some raw →
      (',') ∉ (cleanThinkingTags raw).data →
      classifyNewsByTitle askGroq title =
        { shouldSave := false, category := failCategory })
  ∧ (∀ askGroq title raw p0 ps,
      askGroq (AI_CLASSIFICATION_PROMPT ++ title) = some raw →
      (splitOnChar (',') (cleanThinkingTags raw).data).map jsTrimList = p0 :: ps →
      p0 ≠ [('0')] → p0 ≠ [('1')] →
      classifyNewsByTitle askGroq title =
        { shouldSave := false, category := failCategory })
  ∧ (∀ askGroq title raw flag rest,
      askGroq (AI_CLASSIFICATION_PROMPT ++ title) = some raw →
      (cleanThinkingTags raw).data = flag ++ (',') :: rest →
      (',') ∉ flag →
      (∀ p ∈ splitOnChar (',') (cleanThinkingTags raw).data, jsTrimList p = p) →
      (flag = [('1')] →
        classifyNewsByTitle askGroq title =
          { shouldSave := true, category := String.mk rest })
      ∧ (flag = [('0')] →
        classifyNewsByTitle askGroq title =
          { shouldSave := false, category := String.mk rest }))
  ∧ classifyNewsByTitle (fun _ => some ("1,finance")) ("t") =
      { shouldSave := true, category := ("finance") }
  ∧ classifyNewsByTitle (fun _ => some ("0,sports")) ("t") =
      { shouldSave := false, category := ("sports") }
  ∧ classifyNewsByTitle (fun _ => some ("maybe")) ("t") =
      { shouldSave := false, category := failCategory } := by
  refine ⟨?_, ?_, ?_, ?_, by decide, by decide, by decide⟩
  · intro askGroq title hask
    unfold classifyNewsByTitle
    rw [hask]
  · intro askGroq title raw hask hnc
    unfold classifyNewsByTitle
    rw [hask]
    show classifyParse (cleanThinkingTags raw) = _
    unfold classifyParse
    rw [splitOnChar_of_not_mem (',') _ hnc]
    rfl
  · intro askGroq title raw p0 ps hask hm h0 h1
    unfold classifyNewsByTitle
    rw [hask]
    show classifyParse (cleanThinkingTags raw) = _
    unfold classifyParse
    rw [hm]
    cases ps with
    | nil => rfl
    | cons p1 crest =>
      show (if p0 ≠ [('0')] ∧ p0 ≠ [('1')] then _ else _) = _
      rw [if_pos ⟨h0, h1⟩]
  · intro askGroq title raw flag rest hask heq hnc hinv
    obtain ⟨q, qs, hm, hjoin⟩ :=
      classifyParse_split_form (cleanThinkingTags raw) flag rest heq hnc hinv
    constructor
    · intro hflag
      subst hflag
      unfold classifyNewsByTitle
      rw [hask]
      show classifyParse (cleanThinkingTags raw) = _
      unfold classifyParse
      rw [hm]
      show (if ([('1')] : List Char) ≠ [('0')] ∧ ([('1')] : List Char) ≠ [('1')]
        then _ else _) = _
      rw [if_neg (by decide)]
      rw [hjoin]
      rfl
    · intro hflag
      subst hflag
      unfold classifyNewsByTitle
      rw [hask]
      show classifyParse (cleanThinkingTags raw) = _
      unfold classifyParse
      rw [hm]
      show (if ([('0')] : List Char) ≠ [('0')] ∧ ([('0')] : List Char) ≠ [('1')]
        then _ else _) = _
      rw [if_neg (by decide)]
      rw [hjoin]
      rfl

/-- Witness for C3: the contract applied at a failing oracle, a
comma-free response, a flag outside `{0,1}`, and a well-formed
multi-comma response. -/
theorem c3_classifier_fail_closed_contract_witness :
    classifyNewsByTitle (fun _ => none) ("任意标题") =
      { shouldSave := false, category := failCategory }
  ∧ classifyNewsByTitle (fun _ => some ("maybe")) ("任意标题") =
      { shouldSave := false, category := failCategory }
  ∧ classifyNewsByTitle (fun _ => some ("2,finance")) ("任意标题") =
      { shouldSave := false, category := failCategory }
  ∧ classifyNewsByTitle (fun _ => some ("1,a,b")) ("任意标题") =
      { shouldSave := true, category := ("a,b") } := by
  refine ⟨?_, ?_, ?_, ?_⟩
  · exact c3_classifier_fail_closed_contract.1 (fun _ => none) ("任意标题") rfl
  · exact c3_classifier_fail_closed_contract.2.1 (fun _ => some ("maybe"))
      ("任意标题") ("maybe") rfl (by decide)
  · exact c3_classifier_fail_closed_contract.2.2.1 (fun _ => some ("2,finance"))
      ("任意标题") ("2,finance") ([('2')]) ([("finance".data)]) rfl (by decide)
      (by decide) (by decide)
  · have h := (c3_classifier_fail_closed_contract.2.2.2.1 (fun _ => some ("1,a,b"))
      ("任意标题") ("1,a,b") ([('1')]) (("a,b".data)) rfl (by decide) (by decide)
      (by decide)).1 rfl
    exact h

/-- C10: the classification parser trims whitespace around every
comma-separated segment of the tag-stripped oracle response before
interpreting it, and rebuilds a multi-comma category by rejoining the
trimmed segments with bare commas; `" 1 , finance "` parses as
`{keep: true, category: "finance"}`, and interior whitespace adjacent
to commas inside the category is removed rather than preserved. -/
theorem c10_parser_trims_segments :
    (∀ r p0 p1 crest,
      (splitOnChar (',') r.data).map jsTrimList = p0 :: p1 :: crest →
      (p0 = [('0')] ∨ p0 = [('1')]) →
      classifyParse r = { shouldSave := p0 == [('1')],
                          category := String.mk (joinWith (',') (p1 :: crest)) })
  ∧ classifyNewsByTitle (fun _ => some (" 1 , finance ")) ("t") =
      { shouldSave := true, category := ("finance") }
  ∧ classifyNewsByTitle (fun _ => some ("1, a , b")) ("t") =
      { shouldSave := true, category := ("a,b") } := by
  refine ⟨?_, by decide, by decide⟩
  intro r p0 p1 crest hm hp
  unfold classifyParse
  rw [hm]
  show (if p0 ≠ [('0')] ∧ p0 ≠ [('1')] then _ else _) = _
  rw [if_neg (by rcases hp with h | h <;> simp [h])]

/-- Witness for C10: the general parse shape applied at a concrete
whitespace-laden multi-comma response. -/
theorem c10_parser_trims_segments_witness :
    classifyParse ("0, x ,y") = { shouldSave := false, category := ("x,y") } := by
  have h := c10_parser_trims_segments.1 ("0, x ,y") ([('0')]) ([('x')]) ([[('y')]])
    (by decide) (Or.inl rfl)
  exact h.trans (by decide)

/-- C4 counterexample: with the oracle replying `1,分类失败`, the
classifier returns the keep decision `true` together with the literal
failure category — refuting, as stated over every possible oracle
response, the claim that a true keep decision never carries the
failure category. -/
theorem c4_keep_invariant_counterexample :
    (classifyNewsByTitle (fun _ => some ("1,分类失败")) ("t")).shouldSave = true
  ∧ (classifyNewsByTitle (fun _ => some ("1,分类失败")) ("t")).category =
      failCategory := by
  exact ⟨by decide, by decide⟩

/-- C4 amended: whenever the keep decision is true, the category is
exactly the category parsed from the oracle's own tag-stripped response
(trimmed comma segments after the first, rejoined); the classifier's
internally generated failure classification always has keep = false, so
keep = true can carry the failure category only when the oracle itself
emits that label. -/
theorem c4_keep_category_from_oracle (askGroq : String → Option String)
    (title : String)
    (h : (classifyNewsByTitle askGroq title).shouldSave = true) :
    ∃ raw, askGroq (AI_CLASSIFICATION_PROMPT ++ title) = some raw ∧
      (classifyNewsByTitle askGroq title).category =
        categoryOfResponse (cleanThinkingTags raw) := by
  cases hask : askGroq (AI_CLASSIFICATION_PROMPT ++ title) with
  | none =>
    exfalso
    unfold classifyNewsByTitle at h
    rw [hask] at h
    simp at h
  | some raw =>
    refine ⟨raw, rfl, ?_⟩
    unfold classifyNewsByTitle at h ⊢
    rw [hask] at h ⊢
    exact classifyParse_keep_category _ h

/-- Witness for C4 amended: applied at an oracle that answers
`1,财经新闻`. -/
theorem c4_keep_category_from_oracle_witness :
    ∃ raw, (fun _ : String => some ("1,财经新闻"))
        (AI_CLASSIFICATION_PROMPT ++ ("标题")) = some raw ∧
      (classifyNewsByTitle (fun _ => some ("1,财经新闻")) ("标题")).category =
        categoryOfResponse (cleanThinkingTags raw) :=
  c4_keep_category_from_oracle (fun _ => some ("1,财经新闻")) ("标题") (by decide)

/-- C7: when the summarization oracle call throws, `summarizeContent`
returns the content unchanged (byte for byte) and does not throw (it is
a total function) — the summarizer fails open, in deliberate asymmetry
with the fail-closed classifier of C3. -/
theorem c7_summarizer_fails_open (askGroq : String → Option String)
    (content : String)
    (h : askGroq (AI_SUMMARIZATION_PROMPT ++ content) = none) :
    summarizeContent askGroq content = content := by
  unfold summarizeContent
  rw [h]

/-- Witness for C7: a permanently failing oracle passes the content
through unchanged. -/
theorem c7_summarizer_fails_open_witness :
    summarizeContent (fun _ => none) ("这是一段新闻内容") = ("这是一段新闻内容") :=
  c7_summarizer_fails_open (fun _ => none) ("这是一段新闻内容") rfl

/-- C1: for every item that passes classification (keep = true) and
whose resolved body is strictly longer than `maxContentLength` (500),
the item loop sets the final body to the summarizer's output with the
condensed flag true: the record it persists (whenever the summary
clears the minimum length) carries exactly the summarizer output and
`isAISummarized = true`; when the summarization oracle fails, the final
body equals the pre-summarization body and the record is always
persisted (condensed flag still true); when it succeeds, the final body
is the oracle's tag-stripped output. -/
theorem c1_over_length_condensed
    (classifyOracle summarizeOracle : String → Option String)
    (resolveContent : Entry → String) (feedName : String) (entry : Entry)
    (hkeep : (classifyNewsByTitle classifyOracle entry.title).shouldSave = true)
    (hlen : maxContentLength < (resolveContent entry).length) :
    (minContentLength ≤ (summarizeContent summarizeOracle (resolveContent entry)).length →
      entryOutcome classifyOracle summarizeOracle resolveContent feedName entry =
        ItemAction.persist
          { source := feedName,
            category := (classifyNewsByTitle classifyOracle entry.title).category,
            title := entry.title,
            content := summarizeContent summarizeOracle (resolveContent entry),
            isAISummarized := true })
  ∧ ((summarizeContent summarizeOracle (resolveContent entry)).length < minContentLength →
      entryOutcome classifyOracle summarizeOracle resolveContent feedName entry =
        ItemAction.skipTooShort)
  ∧ (summarizeOracle (AI_SUMMARIZATION_PROMPT ++ resolveContent entry) = none →
      summarizeContent summarizeOracle (resolveContent entry) = resolveContent entry ∧
      entryOutcome classifyOracle summarizeOracle resolveContent feedName entry =
        ItemAction.persist
          { source := feedName,
            category := (classifyNewsByTitle classifyOracle entry.title).category,
            title := entry.title,
            content := resolveContent entry,
            isAISummarized := true })
  ∧ (∀ raw, summarizeOracle (AI_SUMMARIZATION_PROMPT ++ resolveContent entry) = some raw →
      summarizeContent summarizeOracle (resolveContent entry) = cleanThinkingTags raw) := by
  have hcore : entryOutcome classifyOracle summarizeOracle resolveContent feedName entry =
      if (summarizeContent summarizeOracle (resolveContent entry)).length < minContentLength
      then ItemAction.skipTooShort
      else ItemAction.persist
        { source := feedName,
          category := (classifyNewsByTitle classifyOracle entry.title).category,
          title := entry.title,
          content := summarizeContent summarizeOracle (resolveContent entry),
          isAISummarized := true } := by
    unfold entryOutcome
    dsimp only
    rw [hkeep]
    simp only [if_true]
    rw [if_pos hlen]
  refine ⟨?_, ?_, ?_, ?_⟩
  · intro hge
    rw [hcore, if_neg (Nat.not_lt.mpr hge)]
  · intro hlt
    rw [hcore, if_pos hlt]
  · intro hnone
    have hsum : summarizeContent summarizeOracle (resolveContent entry) =
        resolveContent entry := by
      unfold summarizeContent
      rw [hnone]
    have hge : minContentLength ≤
        (summarizeContent summarizeOracle (resolveContent entry)).length := by
      rw [hsum]
      exact le_trans (by decide) (le_of_lt hlen)
    refine ⟨hsum, ?_⟩
    rw [hcore, if_neg (Nat.not_lt.mpr hge), hsum]
  · intro raw hraw
    unfold summarizeContent
    rw [hraw]

/-- A 501-character resolved body used by the C1 witness. -/
def bigBody : String := String.mk (List.replicate 501 ('a'))

set_option maxRecDepth 8192 in
/-- Witness for C1: a kept title, a 501-character body and a failing
summarization oracle persist the original body marked as condensed. -/
theorem c1_over_length_condensed_witness :
    entryOutcome (fun _ => some ("1,财经新闻")) (fun _ => none)
      (fun _ => bigBody) ("测试来源") { title := ("测试标题") } =
      ItemAction.persist
        { source := ("测试来源"),
          category := (classifyNewsByTitle (fun _ => some ("1,财经新闻"))
            ("测试标题")).category,
          title := ("测试标题"),
          content := bigBody,
          isAISummarized := true } := by
  have h := (c1_over_length_condensed (fun _ => some ("1,财经新闻")) (fun _ => none)
    (fun _ => bigBody) ("测试来源") { title := ("测试标题") } (by decide)
    (by decide)).2.2.1 rfl
  exact h.2

/-- C2: whenever the final body after the optional summarization step is
shorter than `minContentLength` (30), no record is persisted —
regardless of the classification outcome — and the skip is silent: the
Drive folder is unchanged and neither the error counter nor the saved
counter moves. -/
theorem c2_min_length_silent_skip
    (classifyOracle summarizeOracle : String → Option String)
    (resolveContent : Entry → String) (feedName : String) (entry : Entry)
    (folder : DriveFolder) (stats : RunStats)
    (hshort : (if maxContentLength < (resolveContent entry).length
        then summarizeContent summarizeOracle (resolveContent entry)
        else resolveContent entry).length < minContentLength) :
    (∀ fields, entryOutcome classifyOracle summarizeOracle resolveContent feedName entry ≠
        ItemAction.persist fields)
  ∧ (processEntry classifyOracle summarizeOracle resolveContent feedName folder entry
      stats).fst = folder
  ∧ (processEntry classifyOracle summarizeOracle resolveContent feedName folder entry
      stats).snd.errors = stats.errors
  ∧ (processEntry classifyOracle summarizeOracle resolveContent feedName folder entry
      stats).snd.saved = stats.saved := by
  have hfst : (if maxContentLength < (resolveContent entry).length
      then (summarizeContent summarizeOracle (resolveContent entry), true)
      else (resolveContent entry, false)).fst =
      (if maxContentLength < (resolveContent entry).length
      then summarizeContent summarizeOracle (resolveContent entry)
      else resolveContent entry) := by
    by_cases hc : maxContentLength < (resolveContent entry).length
    · rw [if_pos hc, if_pos hc]
    · rw [if_neg hc, if_neg hc]
  have hnp : ∀ fields,
      entryOutcome classifyOracle summarizeOracle resolveContent feedName entry ≠
        ItemAction.persist fields := by
    intro fields hcontra
    unfold entryOutcome at hcontra
    dsimp only at hcontra
    by_cases hc : (classifyNewsByTitle classifyOracle entry.title).shouldSave = true
    · rw [if_pos hc] at hcontra
      by_cases hg : (if maxContentLength < (resolveContent entry).length
          then (summarizeContent summarizeOracle (resolveContent entry), true)
          else (resolveContent entry, false)).fst.length < minContentLength
      · rw [if_pos hg] at hcontra
        exact ItemAction.noConfusion hcontra
      · rw [hfst] at hg
        exact hg hshort
    · rw [if_neg hc] at hcontra
      exact ItemAction.noConfusion hcontra
  have hpe : processEntry classifyOracle summarizeOracle resolveContent feedName folder
      entry stats =
      (folder, if jsTrim entry.title = ("") then stats
        else { stats with processed := stats.processed + 1 }) := by
    unfold processEntry
    by_cases ht : jsTrim entry.title = ("")
    · rw [if_pos ht, if_pos ht]
    · rw [if_neg ht, if_neg ht]
      cases ho : entryOutcome classifyOracle summarizeOracle resolveContent feedName entry with
      | skipClassification cat => rfl
      | skipTooShort => rfl
      | persist fields => exact absurd ho (hnp fields)
  refine ⟨hnp, ?_, ?_, ?_⟩
  · rw [hpe]
  · rw [hpe]
    by_cases ht : jsTrim entry.title = ("")
    · rw [if_pos ht]
    · rw [if_neg ht]
  · rw [hpe]
    by_cases ht : jsTrim entry.title = ("")
    · rw [if_pos ht]
    · rw [if_neg ht]

/-- Witness for C2: a kept title whose resolved body is a single
character leaves the folder and the saved and error counters untouched. -/
theorem c2_min_length_silent_skip_witness :
    (processEntry (fun _ => some ("1,财经新闻")) (fun _ => none) (fun _ => ("短"))
      ("来源") ([]) { title := ("标题") }
      { processed := 2, saved := 1, errors := 0 }).fst = ([])
  ∧ (processEntry (fun _ => some ("1,财经新闻")) (fun _ => none) (fun _ => ("短"))
      ("来源") ([]) { title := ("标题") }
      { processed := 2, saved := 1, errors := 0 }).snd.errors = 0 := by
  have h := c2_min_length_silent_skip (fun _ => some ("1,财经新闻")) (fun _ => none)
    (fun _ => ("短")) ("来源") { title := ("标题") } ([])
    { processed := 2, saved := 1, errors := 0 } (by decide)
  exact ⟨h.2.1, h.2.2.1⟩

/-- A 12-line document whose 11th-from-last line (the second line)
carries the banned marker `记者`. -/
def c5Input : String :=
  "第01行\n记者：张三 报道\n第03行\n第04行\n第05行\n第06行\n第07行\n第08行\n第09行\n第10行\n第11行\n第12行"

/-- What the source produces on `c5Input`: the marker line — the 11th
from the end — has been dropped. -/
def c5Output : String :=
  "第01行\n第03行\n第04行\n第05行\n第06行\n第07行\n第08行\n第09行\n第10行\n第11行\n第12行"

/-- A 16-line document with the marker 15 lines from the end. -/
def c5FarInput : String :=
  "第01行\n记者：张三 报道\n第03行\n第04行\n第05行\n第06行\n第07行\n第08行\n第09行\n第10行\n第11行\n第12行\n第13行\n第14行\n第15行\n第16行"

/-- C5 evaluation at the failing input: although the source's comments
(and the claim) say only the final 10 lines are scrubbed and the
11th-from-last is preserved as a safety margin, the slice
`lines.slice(Math.max(0, lines.length - 10 - 1))` actually processes
the final 11 lines, so a marker on the 11th-from-last line is dropped.
A marker 15 lines from the end is preserved, as the claim says. -/
theorem c5_footer_window_eval :
    cleanFooterContent c5Input = c5Output
  ∧ containsL ("记者".data) c5Output.data = false
  ∧ cleanFooterContent c5FarInput = c5FarInput := by
  exact ⟨by decide, by decide, by decide⟩

/-- The failing detail page for C6: a document with an ordinary body. -/
def c6Html : String := "<html><body>hello</body></html>"

/-- C6 evaluation at the failing input: when no selector matches, the
source is supposed to fall back to the body content, but its regex
literal `/<body[^>]*>([\\s\\S]*?)<\/body>/i` contains `[\\s\\S]` —
inside a regex literal that class is `{backslash, s, S}`, not "any
character" — so the capture fails on ordinary body text and the code
returns the whole document even though a `<body>` tag is present.  The
capture only succeeds when the body consists of characters from that
three-character class. -/
theorem c6_body_fallback_eval :
    detailContentChoice (fun _ _ => ("")) c6Html ([("article")]) = c6Html
  ∧ detailContentChoice (fun _ _ => ("")) c6Html ([("article")]) ≠ ("hello")
  ∧ detailContentChoice (fun _ _ => ("")) ("<body>sSs</body>") ([("article")]) = ("sSs") := by
  exact ⟨by decide, by decide, by decide⟩

/-- C8: persistence is idempotent on the derived key: saving two
records whose titles derive the same filesystem-safe key into an empty
collection results in exactly one stored entry, whose content is the
second record's content — an overwrite, never a duplicate. -/
theorem c8_persist_overwrite (title1 title2 content1 content2 : String)
    (h : safeFileName title1 100 = safeFileName title2 100) :
    (saveNewsToDrive (saveNewsToDrive ([]) title1 content1).fst title2 content2).fst =
      [(safeFileName title2 100 ++ (".txt"), content2)]
  ∧ (saveNewsToDrive (saveNewsToDrive ([]) title1 content1).fst title2 content2).snd
      = true := by
  have hne : ¬ jsTrim (safeFileName title2 100 ++ (".txt")) = ("") := by
    intro hempty
    have hnil : jsTrimList ((safeFileName title2 100 ++ (".txt")).data) = [] :=
      congrArg String.data hempty
    have hmem : ('t') ∈ (safeFileName title2 100 ++ (".txt")).data := by
      have hdata : (safeFileName title2 100 ++ (".txt")).data =
          (safeFileName title2 100).data ++ (".txt").data := rfl
      rw [hdata]
      exact List.mem_append.mpr (Or.inr (by decide))
    exact jsTrimList_ne_nil hmem (by decide) hnil
  have h1 : saveOrUpdateFile ([]) (safeFileName title2 100 ++ (".txt")) content1 =
      ([(safeFileName title2 100 ++ (".txt"), content1)], true) := by
    unfold saveOrUpdateFile
    rw [if_neg hne]
    rfl
  have h2 : saveOrUpdateFile ([(safeFileName title2 100 ++ (".txt"), content1)])
      (safeFileName title2 100 ++ (".txt")) content2 =
      ([(safeFileName title2 100 ++ (".txt"), content2)], true) := by
    unfold saveOrUpdateFile
    rw [if_neg hne]
    unfold updateFirstFile
    rw [if_pos rfl]
  unfold saveNewsToDrive
  rw [h, h1]
  dsimp only
  rw [h2]
  exact ⟨rfl, rfl⟩

/-- Witness for C8: the titles `a/b` and `ab` derive the same key (the
slash is illegal in Drive file names and is stripped). -/
theorem c8_persist_overwrite_witness :
    (saveNewsToDrive (saveNewsToDrive ([]) ("a/b") ("正文一")).fst ("ab") ("正文二")).fst =
      [(safeFileName ("ab") 100 ++ (".txt"), ("正文二"))] :=
  (c8_persist_overwrite ("a/b") ("ab") ("正文一") ("正文二") (by decide)).1

/-- The entries of a feed that take part in processing: those with a
non-empty (after trim) title. -/
def eligEntries (entries : List Entry) : List Entry :=
  entries.filter (fun e => !(jsTrim e.title == ("")))

/-- How many eligible entries have an item step that reports a
successful save. -/
def savedCount (itemStep : Entry → Except String Bool) (entries : List Entry) : Nat :=
  (eligEntries entries).countP
    (fun e => match itemStep e with | Except.ok true => true | _ => false)

/-- How many eligible entries have an item step that raises. -/
def erroredCount (itemStep : Entry → Except String Bool) (entries : List Entry) : Nat :=
  (eligEntries entries).countP
    (fun e => match itemStep e with | Except.error _ => true | _ => false)

theorem processItemsList_spec (itemStep : Entry → Except String Bool)
    (entries : List Entry) (stats : RunStats) :
    processItemsList itemStep entries stats =
      { processed := stats.processed + (eligEntries entries).length,
        saved := stats.saved + savedCount itemStep entries,
        errors := stats.errors + erroredCount itemStep entries } := by
  induction entries generalizing stats with
  | nil =>
    simp [processItemsList, eligEntries, savedCount, erroredCount]
  | cons e rest ih =>
    simp only [processItemsList]
    by_cases ht : jsTrim e.title = ("")
    · rw [if_pos ht, ih]
      have hb : (!(jsTrim e.title == (""))) = false := by simp [ht]
      simp [eligEntries, savedCount, erroredCount, List.filter_cons, hb]
    · rw [if_neg ht]
      have hb : (!(jsTrim e.title == (""))) = true := by simp [ht]
      cases hstep : itemStep e with
      | ok b =>
        cases b with
        | true =>
          rw [ih]
          simp [eligEntries, savedCount, erroredCount, List.filter_cons, hb,
            List.countP_cons, hstep, RunStats.mk.injEq]
          try omega
        | false =>
          rw [ih]
          simp [eligEntries, savedCount, erroredCount, List.filter_cons, hb,
            List.countP_cons, hstep, RunStats.mk.injEq]
          try omega
      | error msg =>
        rw [ih]
        simp [eligEntries, savedCount, erroredCount, List.filter_cons, hb,
          List.countP_cons, hstep, RunStats.mk.injEq]
        try omega

/-- The processed-items contribution of one feed: zero when the feed
step raises, the capped eligible-entry count when it fetches. -/
def feedProcessedCount (fetchFeed : Feed → Except String (List Entry))
    (feed : Feed) : Nat :=
  match fetchFeed feed with
  | Except.ok entries => (eligEntries (entries.take (maxEntriesOf feed))).length
  | Except.error _ => 0

/-- The saved-records contribution of one feed. -/
def feedSavedCount (fetchFeed : Feed → Except String (List Entry))
    (itemStep : Entry → Except String Bool) (feed : Feed) : Nat :=
  match fetchFeed feed with
  | Except.ok entries => savedCount itemStep (entries.take (maxEntriesOf feed))
  | Except.error _ => 0

/-- The error contribution of one feed: one when the feed step raises,
else the number of raising item steps among its eligible entries. -/
def feedErrorCount (fetchFeed : Feed → Except String (List Entry))
    (itemStep : Entry → Except String Bool) (feed : Feed) : Nat :=
  match fetchFeed feed with
  | Except.ok entries => erroredCount itemStep (entries.take (maxEntriesOf feed))
  | Except.error _ => 1

theorem runGroupAux_spec (fetchFeed : Feed → Except String (List Entry))
    (itemStep : Entry → Except String Bool) (feeds : List Feed) (stats : RunStats) :
    runGroupAux fetchFeed itemStep feeds stats =
      { processed := stats.processed + (feeds.map (feedProcessedCount fetchFeed)).sum,
        saved := stats.saved + (feeds.map (feedSavedCount fetchFeed itemStep)).sum,
        errors := stats.errors + (feeds.map (feedErrorCount fetchFeed itemStep)).sum } := by
  induction feeds generalizing stats with
  | nil => simp [runGroupAux]
  | cons feed rest ih =>
    simp only [runGroupAux]
    cases hf : fetchFeed feed with
    | ok entries =>
      dsimp only
      rw [processItemsList_spec, ih]
      simp [feedProcessedCount, feedSavedCount, feedErrorCount, hf,
        RunStats.mk.injEq]
      try omega
    | error msg =>
      dsimp only
      rw [ih]
      simp [feedProcessedCount, feedSavedCount, feedErrorCount, hf,
        RunStats.mk.injEq]
      try omega

/-- C9: failure isolation in a group run.  With the per-item work and
the per-feed fetch each allowed to raise arbitrarily, the run always
terminates with counters that are exactly the per-feed sums: every
eligible item of every successfully fetched feed is counted as
processed no matter which other items raise (an item exception is
caught at the item boundary, counted in `errors`, and the loop
continues), and a raising feed contributes exactly one error while
every other feed still contributes in full (a feed exception is caught
at the feed boundary).  No single item or feed failure can abort the
group run or change any other feed's contribution. -/
theorem c9_failure_isolation (fetchFeed : Feed → Except String (List Entry))
    (itemStep : Entry → Except String Bool) (feeds : List Feed) :
    runGroupStats fetchFeed itemStep feeds =
      { processed := (feeds.map (feedProcessedCount fetchFeed)).sum,
        saved := (feeds.map (feedSavedCount fetchFeed itemStep)).sum,
        errors := (feeds.map (feedErrorCount fetchFeed itemStep)).sum } := by
  unfold runGroupStats
  rw [runGroupAux_spec]
  simp
